import Mathlib

/-!
A shallow embedding of the `fowl` Twitter-client module (`src/fowl/__init__.py`)
and proofs about its specification claims.

Python dictionaries/lists loaded from JSON are modelled by the `Json` type;
Python exceptions raised during decoding are modelled by the `Except PyErr`
monad.  Each embedded definition mirrors the control flow of the source
function it is named after, including the order in which subscripts are
evaluated (and hence the order in which exceptions can be raised).
-/

/-- Python exceptions that the decoding pipeline can raise. -/
inductive PyErr where
  | keyError (k : String)
  | indexError
  | typeError
  | valueError
  | attributeError
deriving DecidableEq, Repr

/-- JSON values, as produced by `json` decoding in Python: dicts are
association lists with string keys. -/
inductive Json where
  | str (s : String)
  | num (n : Int)
  | bool (b : Bool)
  | null
  | arr (xs : List Json)
  | obj (kvs : List (String × Json))
deriving Repr

mutual

/-- Structural size of a JSON value, used as recursion fuel for the
recursive tweet parser (executable, unlike the derived `sizeOf`). -/
def Json.size : Json → Nat
  | .str _ => 1
  | .num _ => 1
  | .bool _ => 1
  | .null => 1
  | .arr xs => 1 + Json.sizeList xs
  | .obj kvs => 1 + Json.sizeKVs kvs

/-- Size of a JSON array's elements. -/
def Json.sizeList : List Json → Nat
  | [] => 0
  | x :: xs => 1 + Json.size x + Json.sizeList xs

/-- Size of a JSON object's bindings. -/
def Json.sizeKVs : List (String × Json) → Nat
  | [] => 0
  | kv :: rest => 1 + Json.size kv.2 + Json.sizeKVs rest

end

/-- Dictionary lookup (keys are unique in decoded JSON objects). -/
def assocLookup : List (String × Json) → String → Option Json
  | [], _ => none
  | (k', v) :: rest, k => if k' = k then some v else assocLookup rest k

/-- Python `d[k]` for a string key: `KeyError` when the key is absent,
`TypeError` when the subscripted value is not a dict. -/
def Json.sub (j : Json) (k : String) : Except PyErr Json :=
  match j with
  | .obj kvs =>
      match assocLookup kvs k with
      | some v => .ok v
      | none => .error (.keyError k)
  | _ => .error .typeError

/-- Python `j == s` for a string literal `s`: value equality when `j` is a
string, `False` otherwise. -/
def Json.eqStr (j : Json) (k : String) : Bool :=
  match j with
  | .str s => s == k
  | _ => false

/-- Substring test on character lists. -/
def hasSubList (needle : List Char) : List Char → Bool
  | [] => needle.isEmpty
  | c :: rest => needle.isPrefixOf (c :: rest) || hasSubList needle rest

/-- Python `needle in hay` for strings. -/
def strContainsStr (needle hay : String) : Bool :=
  hasSubList needle.toList hay.toList

/-- Python `k in j`: key membership for dicts, element membership for lists,
substring test for strings, `TypeError` otherwise. -/
def pyContains (k : String) (j : Json) : Except PyErr Bool :=
  match j with
  | .obj kvs => .ok (assocLookup kvs k).isSome
  | .arr xs => .ok (xs.any (fun x => x.eqStr k))
  | .str s => .ok (strContainsStr k s)
  | _ => .error .typeError

/-- Python iteration (`for x in j`, `tuple(j)`, `list(map(f, j))`): lists
yield their elements, strings their characters, dicts their keys;
non-iterables raise `TypeError`. -/
def pyIter (j : Json) : Except PyErr (List Json) :=
  match j with
  | .arr xs => .ok xs
  | .str s => .ok (s.toList.map (fun c => Json.str (String.mk [c])))
  | .obj kvs => .ok (kvs.map (fun kv => Json.str kv.1))
  | _ => .error .typeError

/-- Python `j[-2:]`: the last two items of a sequence (`TypeError` on
non-sequences; short sequences are returned whole). -/
def pySliceLastTwo (j : Json) : Except PyErr Json :=
  match j with
  | .arr xs => .ok (.arr (xs.drop (xs.length - 2)))
  | .str s => .ok (.str (String.mk (s.toList.drop (s.length - 2))))
  | _ => .error .typeError

/-- Python `j[:-2]`: everything but the last two items of a sequence. -/
def pySliceDropLastTwo (j : Json) : Except PyErr Json :=
  match j with
  | .arr xs => .ok (.arr (xs.take (xs.length - 2)))
  | .str s => .ok (.str (String.mk (s.toList.take (s.length - 2))))
  | _ => .error .typeError

/-- Python `j[i]` for a non-negative integer index. -/
def pyIndex (j : Json) (i : Nat) : Except PyErr Json :=
  match j with
  | .arr xs =>
      match xs[i]? with
      | some v => .ok v
      | none => .error .indexError
  | .str s =>
      match s.toList[i]? with
      | some c => .ok (.str (String.mk [c]))
      | none => .error .indexError
  | .obj _ => .error (.keyError (toString i))
  | _ => .error .typeError

/-- Python `count or d` for an optional integer: `None` and `0` are falsy. -/
def pyOrInt : Option Int → Int → Int
  | none, d => d
  | some c, d => if c == 0 then d else c

/-- Error-ordered `map` over `Except` (Python `list(map(f, xs))`): the
first element's exception is raised first. -/
def mapME (f : α → Except PyErr β) : List α → Except PyErr (List β)
  | [] => .ok []
  | a :: l => (f a).bind fun b => (mapME f l).bind fun bs => .ok (b :: bs)

/-- Error-ordered fold over `Except` (a Python `for` loop threading state). -/
def foldME (f : σ → α → Except PyErr σ) : σ → List α → Except PyErr σ
  | s, [] => .ok s
  | s, a :: l => (f s a).bind fun s' => foldME f s' l

/-- `User` (`src/fowl/__init__.py`): the four fields are stored exactly as
read from the JSON node, with no type coercion. -/
structure User where
  rest_id : Json
  handle : Json
  name : Json
  description : Json
deriving Repr

/-- The `Tweet` tagged union: `PlainTweet`, `QuoteTweet`, `Retweet`,
`TombstoneTweet`. -/
inductive Tweet where
  | plain (author : User) (content : Json) (display_text_range : List Json)
  | quote (author : User) (content : Json) (display_text_range : List Json) (child : Tweet)
  | retweet (author : User) (child : Tweet)
  | tombstone
deriving Repr

/-- `TimelineEntryType` enum. -/
inductive TimelineEntryType where
  | PINNED_TWEET
  | STATUS_TWEET
deriving DecidableEq, Repr

/-- `TimelineEntry` dataclass. -/
structure TimelineEntry where
  type : TimelineEntryType
  tweet : Tweet
deriving Repr

/-- `_parse_user`: field reads in source order (`rest_id`, `legacy`,
`screen_name`, `name`, `description`). -/
def parse_user (data : Json) : Except PyErr User := do
  let rest_id ← data.sub "rest_id"
  let legacy ← data.sub "legacy"
  let handle ← legacy.sub "screen_name"
  let name ← legacy.sub "name"
  let description ← legacy.sub "description"
  pure { rest_id := rest_id, handle := handle, name := name, description := description }

/-- `_parse_tweet`, fuelled so that the definition is structurally
recursive (the fuel argument strictly exceeds no bound the recursion
needs: each recursive call descends into a strict JSON subterm, so
`Json.size data` fuel always suffices; see `parse_tweet_go_congr`).
The body mirrors the Python statement order exactly. -/
def parse_tweet_go : Nat → Json → Except PyErr Tweet
  | 0, _ => .error .typeError
  | fuel+1, data => do
    let type_name ← data.sub "__typename"
    if type_name.eqStr "TweetTombstone" then
      pure Tweet.tombstone
    else do
      let legacy ← data.sub "legacy"
      let core ← data.sub "core"
      let user_results ← core.sub "user_results"
      let user_result ← user_results.sub "result"
      let author ← parse_user user_result
      let content ← legacy.sub "full_text"
      let dtr ← legacy.sub "display_text_range"
      let display_text_range ← pyIter dtr
      let has_retweet ← pyContains "retweeted_status_result" legacy
      if has_retweet then do
        let rsr ← legacy.sub "retweeted_status_result"
        let rsr_result ← rsr.sub "result"
        let child ← parse_tweet_go fuel rsr_result
        pure (Tweet.retweet author child)
      else do
        let has_quote ← pyContains "quoted_status_result" data
        if has_quote then do
          let qsr ← data.sub "quoted_status_result"
          let qsr_result ← qsr.sub "result"
          let child ← parse_tweet_go fuel qsr_result
          pure (Tweet.quote author content display_text_range child)
        else
          pure (Tweet.plain author content display_text_range)

/-- `_parse_tweet` proper. -/
def parse_tweet (data : Json) : Except PyErr Tweet :=
  parse_tweet_go data.size data

/-- `_parse_timeline_tweet_entry`. -/
def parse_timeline_tweet_entry (data : Json) (ty : TimelineEntryType) :
    Except PyErr TimelineEntry := do
  let content ← data.sub "content"
  let itemContent ← content.sub "itemContent"
  let tweet_results ← itemContent.sub "tweet_results"
  let result ← tweet_results.sub "result"
  let tweet ← parse_tweet result
  pure { type := ty, tweet := tweet }

/-- `_parse_tweet_cursor`: `cursor["content"]["value"]`. -/
def parse_tweet_cursor (cursor : Json) : Except PyErr Json := do
  let content ← cursor.sub "content"
  content.sub "value"

/-- The body of the `for instruction in instructions` loop of
`_parse_timeline`, threading `(entries, cursors)`.  Note that the second
`if` is not an `elif` and re-reads `instruction["type"]`, exactly as the
source does. -/
def timelineStep (pinned : Bool) (st : List TimelineEntry × Option Json)
    (instruction : Json) : Except PyErr (List TimelineEntry × Option Json) := do
  let t1 ← instruction.sub "type"
  let st ←
    if t1.eqStr "TimelineAddEntries" then do
      let items ← instruction.sub "entries"
      let cursors ← pySliceLastTwo items
      let sliced ← pySliceDropLastTwo items
      let xs ← pyIter sliced
      let parsed ← mapME (fun x => parse_timeline_tweet_entry x TimelineEntryType.STATUS_TWEET) xs
      pure (st.1 ++ parsed, some cursors)
    else
      pure st
  let t2 ← instruction.sub "type"
  if t2.eqStr "TimelinePinEntry" && pinned then do
    let item ← instruction.sub "entry"
    let parsed ← parse_timeline_tweet_entry item TimelineEntryType.PINNED_TWEET
    pure (st.1 ++ [parsed], st.2)
  else
    pure st

/-- The instruction-list descent
`data["data"]["user"]["result"]["timeline_v2"]["timeline"]["instructions"]`. -/
def extract_instructions (data : Json) : Except PyErr Json := do
  let a ← data.sub "data"
  let b ← a.sub "user"
  let c ← b.sub "result"
  let d ← c.sub "timeline_v2"
  let e ← d.sub "timeline"
  e.sub "instructions"

/-- The loop and cursor extraction of `_parse_timeline`, on an already
materialised instruction list.  `cursors` starts as Python `None`;
subscripting `None` raises `TypeError`. -/
def parse_instructions (instrs : List Json) (pinned : Bool) :
    Except PyErr (List TimelineEntry × Json × Json) := do
  let (entries, cursors) ← foldME (timelineStep pinned) ([], none) instrs
  match cursors with
  | none => .error .typeError
  | some cs => do
    let c0 ← pyIndex cs 0
    let cursor_top ← parse_tweet_cursor c0
    let c1 ← pyIndex cs 1
    let cursor_bottom ← parse_tweet_cursor c1
    pure (entries, cursor_top, cursor_bottom)

/-- `_parse_timeline`. -/
def parse_timeline (data : Json) (pinned : Bool) :
    Except PyErr (List TimelineEntry × Json × Json) := do
  let instructions ← extract_instructions data
  let l ← pyIter instructions
  parse_instructions l pinned

theorem okBind (a : α) (f : α → Except PyErr β) : (Except.ok a >>= f) = f a := rfl

theorem errBind (e : PyErr) (f : α → Except PyErr β) :
    ((Except.error e : Except PyErr α) >>= f) = .error e := rfl

theorem pureBind (a : α) (f : α → Except PyErr β) :
    ((pure a : Except PyErr α) >>= f) = f a := rfl

theorem Json.size_pos (j : Json) : 0 < j.size := by
  cases j <;> simp [Json.size]

theorem assocLookup_size {kvs : List (String × Json)} {k : String} {v : Json}
    (h : assocLookup kvs k = some v) : Json.size v < 1 + Json.sizeKVs kvs := by
  induction kvs with
  | nil => simp [assocLookup] at h
  | cons kv rest ih =>
    obtain ⟨k', v'⟩ := kv
    by_cases hk : k' = k
    · simp [assocLookup, hk] at h
      subst h
      simp [Json.sizeKVs]
      omega
    · simp [assocLookup, hk] at h
      have := ih h
      simp [Json.sizeKVs]
      omega

theorem Json.sub_size {j : Json} {k : String} {v : Json}
    (h : j.sub k = .ok v) : v.size < j.size := by
  cases j <;> simp [Json.sub] at h
  case obj kvs =>
    cases hl : assocLookup kvs k with
    | none => rw [hl] at h; cases h
    | some v' =>
      rw [hl] at h
      cases h
      have := assocLookup_size hl
      simp [Json.size]
      omega

theorem parse_tweet_go_congr :
    ∀ f₁ f₂ : Nat, ∀ j : Json, j.size ≤ f₁ → j.size ≤ f₂ →
      parse_tweet_go f₁ j = parse_tweet_go f₂ j := by
  intro f₁
  induction f₁ with
  | zero =>
    intro f₂ j h1 _
    exact absurd h1 (by have := Json.size_pos j; omega)
  | succ n ih =>
    intro f₂ j h1 h2
    cases f₂ with
    | zero => exact absurd h2 (by have := Json.size_pos j; omega)
    | succ m =>
      simp only [parse_tweet_go]
      cases h3 : j.sub "__typename" with
      | error e => simp only [errBind]
      | ok tn =>
        simp only [okBind]
        cases hb : tn.eqStr "TweetTombstone" with
        | true => simp only [if_true]
        | false =>
          simp only [Bool.false_eq_true, if_false]
          cases h4 : j.sub "legacy" with
          | error e => simp only [errBind]
          | ok legacy =>
            simp only [okBind]
            cases h5 : j.sub "core" with
            | error e => simp only [errBind]
            | ok core =>
              simp only [okBind]
              cases h6 : core.sub "user_results" with
              | error e => simp only [errBind]
              | ok user_results =>
                simp only [okBind]
                cases h7 : user_results.sub "result" with
                | error e => simp only [errBind]
                | ok user_result =>
                  simp only [okBind]
                  cases h8 : parse_user user_result with
                  | error e => simp only [errBind]
                  | ok author =>
                    simp only [okBind]
                    cases h9 : legacy.sub "full_text" with
                    | error e => simp only [errBind]
                    | ok content =>
                      simp only [okBind]
                      cases h10 : legacy.sub "display_text_range" with
                      | error e => simp only [errBind]
                      | ok dtr =>
                        simp only [okBind]
                        cases h11 : pyIter dtr with
                        | error e => simp only [errBind]
                        | ok display_text_range =>
                          simp only [okBind]
                          cases h12 : pyContains "retweeted_status_result" legacy with
                          | error e => simp only [errBind]
                          | ok has_retweet =>
                            simp only [okBind]
                            cases has_retweet with
                            | true =>
                              simp only [if_true]
                              cases h13 : legacy.sub "retweeted_status_result" with
                              | error e => simp only [errBind]
                              | ok rsr =>
                                simp only [okBind]
                                cases h14 : rsr.sub "result" with
                                | error e => simp only [errBind]
                                | ok rr =>
                                  simp only [okBind]
                                  have hsz : rr.size < j.size :=
                                    lt_trans (lt_trans (Json.sub_size h14) (Json.sub_size h13))
                                      (Json.sub_size h4)
                                  rw [ih m rr (by omega) (by omega)]
                            | false =>
                              simp only [Bool.false_eq_true, if_false]
                              cases h15 : pyContains "quoted_status_result" j with
                              | error e => simp only [errBind]
                              | ok has_quote =>
                                simp only [okBind]
                                cases has_quote with
                                | true =>
                                  simp only [if_true]
                                  cases h16 : j.sub "quoted_status_result" with
                                  | error e => simp only [errBind]
                                  | ok qsr =>
                                    simp only [okBind]
                                    cases h17 : qsr.sub "result" with
                                    | error e => simp only [errBind]
                                    | ok qr =>
                                      simp only [okBind]
                                      have hsz : qr.size < j.size :=
                                        lt_trans (Json.sub_size h17) (Json.sub_size h16)
                                      rw [ih m qr (by omega) (by omega)]
                                | false => simp only [Bool.false_eq_true, if_false]

/-- Fuel irrelevance: any sufficient fuel computes `parse_tweet`. -/
theorem parse_tweet_go_spec {fuel : Nat} {j : Json} (h : j.size ≤ fuel) :
    parse_tweet_go fuel j = parse_tweet j :=
  parse_tweet_go_congr fuel j.size j h (le_refl _)

/-- A tombstone node carrying nothing but its `__typename` (in particular,
no `legacy` key). -/
def tombNode : Json := .obj [("__typename", .str "TweetTombstone")]

/-- A well-formed user-result node. -/
def userNode : Json := .obj [("rest_id", .str "42"),
  ("legacy", .obj [("screen_name", .str "alice"), ("name", .str "Alice"),
    ("description", .str "d")])]

/-- The `User` value `userNode` decodes to. -/
def aliceUser : User :=
  { rest_id := .str "42", handle := .str "alice", name := .str "Alice",
    description := .str "d" }

/-- A cursor entry: `entry.content.value` holds the cursor token. -/
def cursorEntry (v : String) : Json := .obj [("content", .obj [("value", .str v)])]

/-- A timeline tweet entry wrapping a tweet-result node. -/
def tweetEntry (t : Json) : Json :=
  .obj [("content", .obj [("itemContent", .obj [("tweet_results",
    .obj [("result", t)])])])]

/-- A timeline response envelope around an instruction list. -/
def mkTimeline (instrs : List Json) : Json :=
  .obj [("data", .obj [("user", .obj [("result", .obj [("timeline_v2",
    .obj [("timeline", .obj [("instructions", .arr instrs)])])])])])]

/-- A `TimelineAddEntries` instruction. -/
def addInstr (es : List Json) : Json :=
  .obj [("type", .str "TimelineAddEntries"), ("entries", .arr es)]

/-- A `TimelinePinEntry` instruction. -/
def pinInstr (e : Json) : Json :=
  .obj [("type", .str "TimelinePinEntry"), ("entry", e)]

/-- Claim C2: every JSON node whose `__typename` field is the string
`"TweetTombstone"` decodes to the `TombstoneTweet` variant, regardless of
any other field — in particular `_parse_tweet` never reads the node's
`legacy` key on this path, so a tombstone lacking `legacy` still decodes
and no default author or text is substituted. -/
theorem claim_c2_tombstone_short_circuits (data : Json)
    (h : data.sub "__typename" = .ok (Json.str "TweetTombstone")) :
    parse_tweet data = .ok Tweet.tombstone := by
  unfold parse_tweet
  obtain ⟨k, hk⟩ : ∃ k, data.size = k + 1 :=
    ⟨data.size - 1, by have := Json.size_pos data; omega⟩
  rw [hk]
  simp only [parse_tweet_go, h, okBind]
  simp [Json.eqStr]
  rfl

/-- Witness for C2 at a concrete tombstone node that has no `legacy` key. -/
theorem claim_c2_witness : parse_tweet tombNode = .ok Tweet.tombstone :=
  claim_c2_tombstone_short_circuits tombNode rfl

namespace TwitterGraphQl

/-- `_TwitterGraphQl._to_http_params`: the two maps are JSON-encoded and
sent as the `variables` and `features` query parameters.  The
`json.dumps` text encoding is modelled by the structured value itself
(the encoded maps are opaque strings to the transport). -/
def to_http_params (vars features : List (String × Json)) :
    List (String × Json) :=
  [("variables", Json.obj vars), ("features", Json.obj features)]

/-- The fixed feature-flag map of `_TwitterGraphQl.user_by_handle`. -/
def user_by_handle_features : List (String × Json) := [
  ("blue_business_profile_image_shape_enabled", .bool true),
  ("responsive_web_graphql_exclude_directive_enabled", .bool true),
  ("verified_phone_label_enabled", .bool false),
  ("highlights_tweets_tab_ui_enabled", .bool false),
  ("creator_subscriptions_tweet_preview_api_enabled", .bool false),
  ("responsive_web_graphql_skip_user_profile_image_extensions_enabled", .bool false),
  ("responsive_web_graphql_timeline_navigation_enabled", .bool true)]

/-- `_TwitterGraphQl.user_by_handle`. -/
def user_by_handle (handle : String) : String × List (String × Json) :=
  ("https://twitter.com/i/api/graphql/pVrmNaXcxPjisIvKtLDMEA/UserByScreenName",
   to_http_params [("screen_name", .str handle)] user_by_handle_features)

/-- The `variables` map of `_TwitterGraphQl.timeline`: `count or 40`
uses Python truthiness (`None` and `0` both select 40), and the `cursor`
key is appended only when `if cursor:` is truthy (neither `None` nor the
empty string). -/
def timeline_variables (user_id : String) (count : Option Int)
    (cursor : Option String) : List (String × Json) :=
  let vars : List (String × Json) := [
    ("userId", Json.str user_id),
    ("count", Json.num (pyOrInt count 40)),
    ("includePromotedContent", Json.bool true),
    ("withQuickPromoteEligibilityTweetFields", Json.bool true),
    ("withVoice", Json.bool true),
    ("withV2Timeline", Json.bool true)]
  match cursor with
  | none => vars
  | some c => if c == "" then vars else vars ++ [("cursor", Json.str c)]

/-- The fixed feature-flag map of `_TwitterGraphQl.timeline`. -/
def timeline_features : List (String × Json) := [
  ("rweb_lists_timeline_redesign_enabled", .bool false),
  ("blue_business_profile_image_shape_enabled", .bool true),
  ("responsive_web_graphql_exclude_directive_enabled", .bool true),
  ("verified_phone_label_enabled", .bool false),
  ("creator_subscriptions_tweet_preview_api_enabled", .bool false),
  ("responsive_web_graphql_timeline_navigation_enabled", .bool true),
  ("responsive_web_graphql_skip_user_profile_image_extensions_enabled", .bool false),
  ("tweetypie_unmention_optimization_enabled", .bool true),
  ("vibe_api_enabled", .bool true),
  ("responsive_web_edit_tweet_api_enabled", .bool true),
  ("graphql_is_translatable_rweb_tweet_is_translatable_enabled", .bool true),
  ("view_counts_everywhere_api_enabled", .bool true),
  ("longform_notetweets_consumption_enabled", .bool true),
  ("tweet_awards_web_tipping_enabled", .bool false),
  ("freedom_of_speech_not_reach_fetch_enabled", .bool true),
  ("standardized_nudges_misinfo", .bool true),
  ("tweet_with_visibility_results_prefer_gql_limited_actions_policy_enabled", .bool false),
  ("interactive_text_enabled", .bool true),
  ("responsive_web_text_conversations_enabled", .bool false),
  ("longform_notetweets_rich_text_read_enabled", .bool true),
  ("longform_notetweets_inline_media_enabled", .bool false),
  ("responsive_web_enhance_cards_enabled", .bool false)]

/-- `_TwitterGraphQl.timeline`. -/
def timeline (user_id : String) (count : Option Int) (cursor : Option String) :
    String × List (String × Json) :=
  ("https://twitter.com/i/api/graphql/WzJjibAcDa-oCjCcLOotcg/UserTweets",
   to_http_params (timeline_variables user_id count cursor) timeline_features)

end TwitterGraphQl

/-- Claim C6 (amended): the serialized `variables` map of the timeline
request contains the key `cursor` exactly when a NON-EMPTY cursor string
is supplied (and then its value is that string); a supplied empty string
behaves like no cursor because the source guards with Python truthiness
(`if cursor:`), not with a `None` test. -/
theorem claim_c6_cursor_key (user_id : String) (count : Option Int)
    (cursor : Option String) :
    (TwitterGraphQl.timeline_variables user_id count cursor).lookup "cursor" =
      match cursor with
      | none => none
      | some c => if c = "" then none else some (Json.str c) := by
  cases cursor with
  | none => simp [TwitterGraphQl.timeline_variables, List.lookup]
  | some c =>
    by_cases hc : c = ""
    · subst hc
      simp [TwitterGraphQl.timeline_variables, List.lookup]
    · have hb : (c == "") = false := beq_eq_false_iff_ne.mpr hc
      simp [TwitterGraphQl.timeline_variables, List.lookup, hb, hc]

/-- Counterexample to C6 as stated: the caller supplies the cursor value
`""`, yet the `cursor` key is absent from the variables map. -/
theorem claim_c6_counterexample :
    (TwitterGraphQl.timeline_variables "u" none (some "")).lookup "cursor" =
      none := rfl

/-- Claim C7 (amended): the `count` variable equals the supplied count
whenever a non-zero count is supplied, and equals 40 when the count is
omitted OR supplied as 0 — `count or 40` is Python or-truthiness, not
null-coalescing. -/
theorem claim_c7_count_value (user_id : String) (count : Option Int)
    (cursor : Option String) :
    (TwitterGraphQl.timeline_variables user_id count cursor).lookup "count" =
      some (Json.num (match count with
        | none => 40
        | some c => if c = 0 then 40 else c)) := by
  have main : ∀ k : Option Int,
      (TwitterGraphQl.timeline_variables user_id k cursor).lookup "count" =
        some (Json.num (pyOrInt k 40)) := by
    intro k
    cases cursor with
    | none => simp [TwitterGraphQl.timeline_variables, List.lookup]
    | some c =>
      rcases eq_or_ne c "" with hc | hc
      · subst hc
        simp [TwitterGraphQl.timeline_variables, List.lookup]
      · simp [TwitterGraphQl.timeline_variables, List.lookup,
          beq_eq_false_iff_ne.mpr hc]
  rw [main count]
  cases count with
  | none => rfl
  | some n =>
    rcases eq_or_ne n 0 with hn | hn
    · subst hn; rfl
    · simp [pyOrInt, hn, beq_eq_false_iff_ne.mpr hn]

/-- Counterexample to C7 as stated: a supplied count of 0 yields 40,
not 0. -/
theorem claim_c7_counterexample :
    (TwitterGraphQl.timeline_variables "u" (some 0) none).lookup "count" =
      some (Json.num 40) := rfl

/-- An HTTP response as the session code consumes it: a status code and a
JSON-decoded body. -/
structure HttpResponse where
  status : Nat
  body : Json

/-- The HTTP transport capability (`aiohttp` in the source): given the
session's default headers, a URL and query parameters, produce a
response.  The session ships its current headers with every request. -/
def Transport : Type :=
  List (String × String) → String → List (String × Json) → HttpResponse

/-- `ClientSession` state: only its default-header map matters to the
embedded operations.  `open()` mutates `headers`; nothing else does. -/
structure ClientSession where
  headers : List (String × String)

/-- A session on which `open()` has not completed: no `Authorization` or
`x-guest-token` header has been installed. -/
def ClientSession.fresh : ClientSession := { headers := [] }

/-- `_validate_status`: any status other than 200 raises `ValueError`. -/
def validate_status (response : HttpResponse) : Except PyErr Unit :=
  if response.status == 200 then .ok () else .error .valueError

/-- `_get_json`: perform the GET, validate the status, return the body. -/
def get_json (transport : Transport) (headers : List (String × String))
    (url : String) (params : List (String × Json)) : Except PyErr Json := do
  let response := transport headers url params
  let _ ← validate_status response
  pure response.body

/-- `ClientSession.get_user_by_handle`.  Note: the source performs NO
readiness check; it builds the request and issues it with whatever
headers the session currently has. -/
def get_user_by_handle (transport : Transport) (session : ClientSession)
    (handle : String) : Except PyErr User := do
  let (url, params) := TwitterGraphQl.user_by_handle handle
  let data ← get_json transport session.headers url params
  let d1 ← data.sub "data"
  let d2 ← d1.sub "user"
  let d3 ← d2.sub "result"
  parse_user d3

/-- `ClientSession.get_timeline`.  Like `get_user_by_handle`, it performs
no readiness check. -/
def get_timeline (transport : Transport) (session : ClientSession)
    (user_id : String) (count : Option Int) (cursor : Option String)
    (pinned : Bool) : Except PyErr (List TimelineEntry × Json × Json) := do
  let (url, params) := TwitterGraphQl.timeline user_id count cursor
  let data ← get_json transport session.headers url params
  parse_timeline data pinned

/-- A valid user-lookup response body. -/
def c4UserBody : Json :=
  .obj [("data", .obj [("user", .obj [("result", userNode)])])]

/-- A transport that answers every request with HTTP 200 and
`c4UserBody`. -/
def c4OkTransport : Transport :=
  fun _ _ _ => { status := 200, body := c4UserBody }

/-- A transport that answers every request with HTTP 403. -/
def c4DenyTransport : Transport :=
  fun _ _ _ => { status := 403, body := .null }

/-- Counterexample to C4 as stated: on a session in the UNINITIALIZED
state (`open()` never ran, so no auth headers were installed), a read
operation does NOT fail with `SessionNotReadyError` — it issues the
request and here even succeeds, because the code contains no readiness
check at all. -/
theorem claim_c4_counterexample :
    get_user_by_handle c4OkTransport ClientSession.fresh "alice" =
      .ok aliceUser := rfl

/-- Claim C4 (amended): read operations perform no readiness check; on
any session — including one whose `open()` has not completed — they
build the request and hand it to the transport, and when the transport
answers with a non-200 status the call fails with the status-validation
`ValueError`, not with any `SessionNotReadyError`. -/
theorem claim_c4_no_readiness_check (transport : Transport)
    (session : ClientSession) (handle user_id : String) (count : Option Int)
    (cursor : Option String) (pinned : Bool)
    (h : ∀ headers url params, (transport headers url params).status ≠ 200) :
    get_user_by_handle transport session handle = .error .valueError ∧
    get_timeline transport session user_id count cursor pinned =
      .error .valueError := by
  have get_json_non200 : ∀ (headers : List (String × String)) (url : String)
      (params : List (String × Json)),
      get_json transport headers url params = .error .valueError := by
    intro headers url params
    have hb : ((transport headers url params).status == 200) = false :=
      beq_eq_false_iff_ne.mpr (h headers url params)
    simp [get_json, validate_status, hb]
  constructor
  · show (do
      let data ← get_json transport session.headers
        "https://twitter.com/i/api/graphql/pVrmNaXcxPjisIvKtLDMEA/UserByScreenName"
        (TwitterGraphQl.to_http_params [("screen_name", .str handle)]
          TwitterGraphQl.user_by_handle_features)
      let d1 ← data.sub "data"
      let d2 ← d1.sub "user"
      let d3 ← d2.sub "result"
      parse_user d3) = Except.error PyErr.valueError
    rw [get_json_non200]
    rfl
  · show (do
      let data ← get_json transport session.headers
        "https://twitter.com/i/api/graphql/WzJjibAcDa-oCjCcLOotcg/UserTweets"
        (TwitterGraphQl.to_http_params
          (TwitterGraphQl.timeline_variables user_id count cursor)
          TwitterGraphQl.timeline_features)
      parse_timeline data pinned) = Except.error PyErr.valueError
    rw [get_json_non200]
    rfl

/-- Witness for the amended C4 at a concrete always-403 transport and an
uninitialized session. -/
theorem claim_c4_witness :
    get_user_by_handle c4DenyTransport ClientSession.fresh "alice" =
      .error .valueError ∧
    get_timeline c4DenyTransport ClientSession.fresh "u" none none true =
      .error .valueError :=
  claim_c4_no_readiness_check c4DenyTransport ClientSession.fresh "alice" "u"
    none none true (fun _ _ _ => show (403 : Nat) ≠ 200 by decide)

/-- Claim C5: for every non-tombstone tweet node, if the node's `legacy`
object contains the key `retweeted_status_result` then a successful
parse yields a `Retweet` whose child is the (recursive) parse of that
key's nested `result` node — even when the node also carries a
`quoted_status_result` key, which is only consulted otherwise; when the
node itself carries `quoted_status_result` (and no retweet key) a
`QuoteTweet` results, and otherwise a `PlainTweet`. -/
theorem claim_c5_retweet_priority (data tn legacy : Json)
    (h1 : data.sub "__typename" = .ok tn)
    (h2 : tn.eqStr "TweetTombstone" = false)
    (h3 : data.sub "legacy" = .ok legacy) :
    (pyContains "retweeted_status_result" legacy = .ok true →
      ∀ rsr rr t, legacy.sub "retweeted_status_result" = .ok rsr →
        rsr.sub "result" = .ok rr →
        parse_tweet data = .ok t →
        ∃ a c, t = Tweet.retweet a c ∧ parse_tweet rr = .ok c) ∧
    (pyContains "retweeted_status_result" legacy = .ok false →
      pyContains "quoted_status_result" data = .ok true →
      ∀ qsr qr t, data.sub "quoted_status_result" = .ok qsr →
        qsr.sub "result" = .ok qr →
        parse_tweet data = .ok t →
        ∃ a co dtr c, t = Tweet.quote a co dtr c ∧ parse_tweet qr = .ok c) ∧
    (pyContains "retweeted_status_result" legacy = .ok false →
      pyContains "quoted_status_result" data = .ok false →
      ∀ t, parse_tweet data = .ok t →
        ∃ a co dtr, t = Tweet.plain a co dtr) := by
  obtain ⟨k, hk⟩ : ∃ k, data.size = k + 1 :=
    ⟨data.size - 1, by have := Json.size_pos data; omega⟩
  refine ⟨?_, ?_, ?_⟩
  · intro hA rsr rr t hA2 hA3 hpt
    unfold parse_tweet at hpt
    rw [hk] at hpt
    simp only [parse_tweet_go, h1, okBind, h2, Bool.false_eq_true, if_false, h3] at hpt
    cases hc1 : data.sub "core" with
    | error e => simp only [hc1, errBind] at hpt; exact Except.noConfusion hpt
    | ok core =>
      simp only [hc1, okBind] at hpt
      cases hc2 : core.sub "user_results" with
      | error e => simp only [hc2, errBind] at hpt; exact Except.noConfusion hpt
      | ok user_results =>
        simp only [hc2, okBind] at hpt
        cases hc3 : user_results.sub "result" with
        | error e => simp only [hc3, errBind] at hpt; exact Except.noConfusion hpt
        | ok user_result =>
          simp only [hc3, okBind] at hpt
          cases hc4 : parse_user user_result with
          | error e => simp only [hc4, errBind] at hpt; exact Except.noConfusion hpt
          | ok author =>
            simp only [hc4, okBind] at hpt
            cases hc5 : legacy.sub "full_text" with
            | error e => simp only [hc5, errBind] at hpt; exact Except.noConfusion hpt
            | ok content =>
              simp only [hc5, okBind] at hpt
              cases hc6 : legacy.sub "display_text_range" with
              | error e => simp only [hc6, errBind] at hpt; exact Except.noConfusion hpt
              | ok dtrJ =>
                simp only [hc6, okBind] at hpt
                cases hc7 : pyIter dtrJ with
                | error e => simp only [hc7, errBind] at hpt; exact Except.noConfusion hpt
                | ok dtr =>
                  simp only [hc7, okBind, hA, if_true, hA2, hA3] at hpt
                  cases hcc : parse_tweet_go k rr with
                  | error e => simp only [hcc, errBind] at hpt; exact Except.noConfusion hpt
                  | ok child =>
                    simp only [hcc, okBind] at hpt
                    have hsz : rr.size ≤ k := by
                      have := Json.sub_size hA3
                      have := Json.sub_size hA2
                      have := Json.sub_size h3
                      omega
                    refine ⟨author, child, ?_, ?_⟩
                    · cases hpt; rfl
                    · rw [← parse_tweet_go_spec hsz]; exact hcc
  · intro hA hB qsr qr t hB2 hB3 hpt
    unfold parse_tweet at hpt
    rw [hk] at hpt
    simp only [parse_tweet_go, h1, okBind, h2, Bool.false_eq_true, if_false, h3] at hpt
    cases hc1 : data.sub "core" with
    | error e => simp only [hc1, errBind] at hpt; exact Except.noConfusion hpt
    | ok core =>
      simp only [hc1, okBind] at hpt
      cases hc2 : core.sub "user_results" with
      | error e => simp only [hc2, errBind] at hpt; exact Except.noConfusion hpt
      | ok user_results =>
        simp only [hc2, okBind] at hpt
        cases hc3 : user_results.sub "result" with
        | error e => simp only [hc3, errBind] at hpt; exact Except.noConfusion hpt
        | ok user_result =>
          simp only [hc3, okBind] at hpt
          cases hc4 : parse_user user_result with
          | error e => simp only [hc4, errBind] at hpt; exact Except.noConfusion hpt
          | ok author =>
            simp only [hc4, okBind] at hpt
            cases hc5 : legacy.sub "full_text" with
            | error e => simp only [hc5, errBind] at hpt; exact Except.noConfusion hpt
            | ok content =>
              simp only [hc5, okBind] at hpt
              cases hc6 : legacy.sub "display_text_range" with
              | error e => simp only [hc6, errBind] at hpt; exact Except.noConfusion hpt
              | ok dtrJ =>
                simp only [hc6, okBind] at hpt
                cases hc7 : pyIter dtrJ with
                | error e => simp only [hc7, errBind] at hpt; exact Except.noConfusion hpt
                | ok dtr =>
                  simp only [hc7, okBind, hA, Bool.false_eq_true, if_false,
                    hB, if_true, hB2, hB3] at hpt
                  cases hcc : parse_tweet_go k qr with
                  | error e => simp only [hcc, errBind] at hpt; exact Except.noConfusion hpt
                  | ok child =>
                    simp only [hcc, okBind] at hpt
                    have hsz : qr.size ≤ k := by
                      have := Json.sub_size hB3
                      have := Json.sub_size hB2
                      omega
                    refine ⟨author, content, dtr, child, ?_, ?_⟩
                    · cases hpt; rfl
                    · rw [← parse_tweet_go_spec hsz]; exact hcc
  · intro hA hB t hpt
    unfold parse_tweet at hpt
    rw [hk] at hpt
    simp only [parse_tweet_go, h1, okBind, h2, Bool.false_eq_true, if_false, h3] at hpt
    cases hc1 : data.sub "core" with
    | error e => simp only [hc1, errBind] at hpt; exact Except.noConfusion hpt
    | ok core =>
      simp only [hc1, okBind] at hpt
      cases hc2 : core.sub "user_results" with
      | error e => simp only [hc2, errBind] at hpt; exact Except.noConfusion hpt
      | ok user_results =>
        simp only [hc2, okBind] at hpt
        cases hc3 : user_results.sub "result" with
        | error e => simp only [hc3, errBind] at hpt; exact Except.noConfusion hpt
        | ok user_result =>
          simp only [hc3, okBind] at hpt
          cases hc4 : parse_user user_result with
          | error e => simp only [hc4, errBind] at hpt; exact Except.noConfusion hpt
          | ok author =>
            simp only [hc4, okBind] at hpt
            cases hc5 : legacy.sub "full_text" with
            | error e => simp only [hc5, errBind] at hpt; exact Except.noConfusion hpt
            | ok content =>
              simp only [hc5, okBind] at hpt
              cases hc6 : legacy.sub "display_text_range" with
              | error e => simp only [hc6, errBind] at hpt; exact Except.noConfusion hpt
              | ok dtrJ =>
                simp only [hc6, okBind] at hpt
                cases hc7 : pyIter dtrJ with
                | error e => simp only [hc7, errBind] at hpt; exact Except.noConfusion hpt
                | ok dtr =>
                  simp only [hc7, okBind, hA, hB, Bool.false_eq_true, if_false] at hpt
                  cases hpt
                  exact ⟨author, content, dtr, rfl⟩

/-- The `legacy` object of the C5 witness node: it contains BOTH a
`retweeted_status_result` key (here) and the node itself carries a
`quoted_status_result` key. -/
def c5Legacy : Json := .obj [
  ("full_text", .str "RT"),
  ("display_text_range", .arr [.num 0, .num 2]),
  ("retweeted_status_result", .obj [("result", tombNode)])]

/-- A tweet node carrying both a retweet child (in `legacy`) and a quote
child (on the node): the retweet branch must win. -/
def c5RetweetNode : Json := .obj [
  ("__typename", .str "Tweet"),
  ("legacy", c5Legacy),
  ("core", .obj [("user_results", .obj [("result", userNode)])]),
  ("quoted_status_result", .obj [("result", tombNode)])]

/-- Witness for C5: the concrete node with both keys decodes to a
`Retweet` whose child is the parse of the nested retweet result. -/
theorem claim_c5_witness :
    ∃ a c, parse_tweet c5RetweetNode = .ok (Tweet.retweet a c) ∧
      parse_tweet tombNode = .ok c := by
  have h := (claim_c5_retweet_priority c5RetweetNode (Json.str "Tweet") c5Legacy
      rfl rfl rfl).1 rfl (.obj [("result", tombNode)]) tombNode
      (Tweet.retweet aliceUser Tweet.tombstone) rfl rfl rfl
  obtain ⟨a, c, ht, hc⟩ := h
  refine ⟨a, c, ?_, hc⟩
  rw [show parse_tweet c5RetweetNode =
    .ok (Tweet.retweet aliceUser Tweet.tombstone) from rfl, ht]

/-- Reduction of `Except.bind` on a success value. -/
theorem okBindE (a : α) (f : α → Except PyErr β) : (Except.ok a).bind f = f a := rfl

/-- Reduction of `Except.bind` on an error value. -/
theorem errBindE (e : PyErr) (f : α → Except PyErr β) :
    (Except.error e : Except PyErr α).bind f = .error e := rfl

/-- `pure` in the `Except` monad is `ok`. -/
theorem pureOk (a : α) : (pure a : Except PyErr α) = Except.ok a := rfl

/-- Reduction of `Except.map` on a success value. -/
theorem mapOk (a : α) (f : α → β) :
    Except.map f (Except.ok a : Except PyErr α) = .ok (f a) := rfl

/-- Reduction of `Except.map` on an error value. -/
theorem mapErr (e : PyErr) (f : α → β) :
    Except.map f (Except.error e : Except PyErr α) = .error e := rfl

/-- The contribution one instruction makes inside the `_parse_timeline`
loop, in isolation: the timeline entries it appends and the cursor slice
it records (`some` exactly for a `TimelineAddEntries` instruction).  It
performs the same reads in the same order as `timelineStep`. -/
def stepSpec (pinned : Bool) (instruction : Json) :
    Except PyErr (List TimelineEntry × Option Json) := do
  let t1 ← instruction.sub "type"
  let p ←
    if t1.eqStr "TimelineAddEntries" then do
      let items ← instruction.sub "entries"
      let cursors ← pySliceLastTwo items
      let sliced ← pySliceDropLastTwo items
      let xs ← pyIter sliced
      let parsed ← mapME
        (fun x => parse_timeline_tweet_entry x TimelineEntryType.STATUS_TWEET) xs
      pure (parsed, some cursors)
    else
      pure (([] : List TimelineEntry), (none : Option Json))
  let t2 ← instruction.sub "type"
  if t2.eqStr "TimelinePinEntry" && pinned then do
    let item ← instruction.sub "entry"
    let parsed ← parse_timeline_tweet_entry item TimelineEntryType.PINNED_TWEET
    pure (p.1 ++ [parsed], p.2)
  else
    pure p

/-- The last `some` in a list of recorded cursor slices (the loop
overwrites `cursors` on every `TimelineAddEntries`), with default `c`. -/
def lastSomeO (c : Option Json) : List (Option Json) → Option Json
  | [] => c
  | o :: l => lastSomeO (if o.isSome then o else c) l

/-- `eqStr` succeeds exactly on the equal string value. -/
theorem Json.eqStr_true_iff {j : Json} {k : String} :
    j.eqStr k = true ↔ j = .str k := by
  cases j <;> simp [Json.eqStr]

/-- The loop body factors through `stepSpec`: it appends the
contribution's entries to the accumulator and keeps the old cursor slice
unless the instruction recorded a new one. -/
theorem timelineStep_decomp (pinned : Bool)
    (st : List TimelineEntry × Option Json) (i : Json) :
    timelineStep pinned st i = (stepSpec pinned i).map
      (fun p => (st.1 ++ p.1, if p.2.isSome then p.2 else st.2)) := by
  cases h1 : i.sub "type" with
  | error e => simp [timelineStep, stepSpec, h1, errBind, mapErr]
  | ok t =>
    simp only [timelineStep, stepSpec, h1, okBind]
    cases ht : t.eqStr "TimelineAddEntries" with
    | true =>
      simp only [if_true]
      have htt : t = .str "TimelineAddEntries" := Json.eqStr_true_iff.mp ht
      subst htt
      cases h2 : i.sub "entries" with
      | error e => simp [h2, errBind, mapErr]
      | ok items =>
        simp only [h2, okBind]
        cases h3 : pySliceLastTwo items with
        | error e => simp [h3, errBind, mapErr]
        | ok cursors =>
          simp only [h3, okBind]
          cases h4 : pySliceDropLastTwo items with
          | error e => simp [h4, errBind, mapErr]
          | ok sliced =>
            simp only [h4, okBind]
            cases h5 : pyIter sliced with
            | error e => simp [h5, errBind, mapErr]
            | ok xs =>
              simp only [h5, okBind]
              cases h6 : mapME
                  (fun x => parse_timeline_tweet_entry x TimelineEntryType.STATUS_TWEET) xs with
              | error e => simp [h6, errBind, mapErr]
              | ok parsed =>
                simp only [h6, okBind, pureBind, h1]
                simp [Json.eqStr, pureOk, mapOk]
    | false =>
      simp only [Bool.false_eq_true, if_false, pureBind, h1, okBind]
      cases hp : (t.eqStr "TimelinePinEntry" && pinned) with
      | true =>
        simp only [hp, if_true]
        cases h7 : i.sub "entry" with
        | error e => simp [h7, errBind, mapErr]
        | ok item =>
          simp only [h7, okBind]
          cases h8 : parse_timeline_tweet_entry item TimelineEntryType.PINNED_TWEET with
          | error e => simp [h8, errBind, mapErr]
          | ok parsed => simp [h8, okBind, pureOk, mapOk]
      | false =>
        simp [hp, pureOk, mapOk]

/-- Characterization of the whole `_parse_timeline` loop: the final
entries are the concatenation of all per-instruction contributions in
instruction order, and the final cursor slice is the LAST one recorded
by any `TimelineAddEntries` instruction. -/
theorem foldME_timelineStep (pinned : Bool) :
    ∀ (instrs : List Json) (acc : List TimelineEntry) (cur : Option Json),
      foldME (timelineStep pinned) (acc, cur) instrs =
        (mapME (stepSpec pinned) instrs).map
          (fun ps => (acc ++ (ps.map Prod.fst).flatten,
            lastSomeO cur (ps.map Prod.snd))) := by
  intro instrs
  induction instrs with
  | nil => intro acc cur; simp [foldME, mapME, mapOk, lastSomeO]
  | cons i rest ih =>
    intro acc cur
    simp only [foldME, mapME]
    rw [timelineStep_decomp]
    cases hs : stepSpec pinned i with
    | error e => simp [mapErr, errBindE]
    | ok p =>
      simp only [mapOk, okBindE]
      rw [ih]
      cases hm : mapME (stepSpec pinned) rest with
      | error e => simp [mapErr, errBindE]
      | ok ps =>
        simp [mapOk, okBindE, lastSomeO, List.append_assoc]

/-- `mapME` over an appended list splits into two runs. -/
theorem mapME_append (f : α → Except PyErr β) (l₁ l₂ : List α) :
    mapME f (l₁ ++ l₂) =
      (mapME f l₁).bind fun b₁ => (mapME f l₂).map fun b₂ => b₁ ++ b₂ := by
  induction l₁ with
  | nil =>
    simp only [List.nil_append, mapME, okBindE]
    cases mapME f l₂ with
    | error e => rfl
    | ok bs => rfl
  | cons a l ih =>
    simp only [List.cons_append, mapME]
    cases f a with
    | error e => simp [errBindE]
    | ok b =>
      simp only [okBindE, List.append_eq]
      rw [ih]
      cases mapME f l with
      | error e => simp [errBindE]
      | ok bs =>
        simp only [okBindE]
        cases mapME f l₂ with
        | error e => simp [mapErr, errBindE]
        | ok b₂ => simp [mapOk, okBindE]

/-- `mapME` of a function constant and successful on a list. -/
theorem mapME_const {f : α → Except PyErr β} {c : β} :
    ∀ {l : List α}, (∀ a ∈ l, f a = .ok c) →
      mapME f l = .ok (l.map fun _ => c) := by
  intro l
  induction l with
  | nil => intro _; rfl
  | cons a rest ih =>
    intro h
    simp only [mapME, h a (by simp), okBindE, ih (fun x hx => h x (by simp [hx]))]
    rfl

/-- A successful `mapME` preserves the length. -/
theorem mapME_ok_length {f : α → Except PyErr β} :
    ∀ {l : List α} {bs : List β}, mapME f l = .ok bs → bs.length = l.length := by
  intro l
  induction l with
  | nil => intro bs h; cases h; rfl
  | cons a rest ih =>
    intro bs h
    simp only [mapME] at h
    cases hf : f a with
    | error e => rw [hf] at h; cases h
    | ok b =>
      rw [hf, okBindE] at h
      cases hm : mapME f rest with
      | error e => rw [hm] at h; cases h
      | ok bs' =>
        rw [hm, okBindE] at h
        cases h
        simp [ih hm]

/-- Every output of a successful `mapME` comes from some input. -/
theorem mapME_ok_mem {f : α → Except PyErr β} :
    ∀ {l : List α} {bs : List β}, mapME f l = .ok bs →
      ∀ b ∈ bs, ∃ a ∈ l, f a = .ok b := by
  intro l
  induction l with
  | nil => intro bs h; cases h; intro b hb; cases hb
  | cons a rest ih =>
    intro bs h
    simp only [mapME] at h
    cases hf : f a with
    | error e => rw [hf] at h; cases h
    | ok b =>
      rw [hf, okBindE] at h
      cases hm : mapME f rest with
      | error e => rw [hm] at h; cases h
      | ok bs' =>
        rw [hm, okBindE] at h
        cases h
        intro x hx
        rcases List.mem_cons.mp hx with hx | hx
        · exact ⟨a, by simp, by rw [hf, hx]⟩
        · obtain ⟨a', ha', hfa'⟩ := ih hm x hx
          exact ⟨a', by simp [ha'], hfa'⟩

/-- `lastSomeO` over an appended list threads its default. -/
theorem lastSomeO_append (c : Option Json) (l₁ l₂ : List (Option Json)) :
    lastSomeO c (l₁ ++ l₂) = lastSomeO (lastSomeO c l₁) l₂ := by
  induction l₁ generalizing c with
  | nil => rfl
  | cons o l ih =>
    simp only [List.cons_append, lastSomeO]
    exact ih _

/-- `lastSomeO` over a list of `none`s keeps the default. -/
theorem lastSomeO_nones {c : Option Json} :
    ∀ {l : List (Option Json)}, (∀ o ∈ l, o = none) → lastSomeO c l = c := by
  intro l
  induction l generalizing c with
  | nil => intro _; rfl
  | cons o rest ih =>
    intro h
    have ho : o = none := h o (by simp)
    simp only [lastSomeO, ho, Option.isSome_none, Bool.false_eq_true, if_false]
    exact ih (fun x hx => h x (by simp [hx]))

/-- Flattening a list of empty lists gives the empty list. -/
theorem flatten_of_nils {L : List (List TimelineEntry)}
    (h : ∀ x ∈ L, x = []) : L.flatten = [] := by
  induction L with
  | nil => rfl
  | cons x rest ih =>
    have hx : x = [] := h x (by simp)
    simp [hx, ih (fun y hy => h y (by simp [hy]))]

/-- An instruction that is neither a `TimelineAddEntries` nor an active
`TimelinePinEntry` contributes nothing. -/
theorem stepSpec_inert {pinned : Bool} {i t : Json}
    (h1 : i.sub "type" = .ok t)
    (h2 : t.eqStr "TimelineAddEntries" = false)
    (h3 : pinned = true → t.eqStr "TimelinePinEntry" = false) :
    stepSpec pinned i = .ok ([], none) := by
  simp only [stepSpec, h1, okBind, h2, Bool.false_eq_true, if_false, pureBind]
  cases hp : pinned with
  | false => simp [hp, pureOk]
  | true => simp [hp, h3 hp, pureOk]

/-- A `TimelineAddEntries` instruction's contribution: parse all but the
last two entries as `STATUS` tweets, record the trailing two as the
cursor slice. -/
theorem stepSpec_add {pinned : Bool} {i : Json} {items : List Json}
    (h1 : i.sub "type" = .ok (.str "TimelineAddEntries"))
    (h2 : i.sub "entries" = .ok (.arr items)) :
    stepSpec pinned i =
      (mapME (fun x => parse_timeline_tweet_entry x TimelineEntryType.STATUS_TWEET)
          (items.take (items.length - 2))).map
        (fun parsed => (parsed, some (.arr (items.drop (items.length - 2))))) := by
  have he : (Json.str "TimelineAddEntries").eqStr "TimelineAddEntries" = true := by
    simp [Json.eqStr]
  simp only [stepSpec, h1, okBind, he, if_true, h2, pySliceLastTwo,
    pySliceDropLastTwo, pyIter, okBind]
  cases hm : mapME (fun x => parse_timeline_tweet_entry x TimelineEntryType.STATUS_TWEET)
      (items.take (items.length - 2)) with
  | error e => simp [errBind, mapErr]
  | ok parsed =>
    simp only [okBind, pureBind, h1]
    simp [Json.eqStr, pureOk, mapOk]

/-- A non-`TimelineAddEntries` instruction never records a cursor
slice. -/
theorem stepSpec_ok_snd_none {pinned : Bool} {i : Json}
    {p : List TimelineEntry × Option Json}
    (hok : stepSpec pinned i = .ok p)
    (h : ∀ t, i.sub "type" = .ok t → t.eqStr "TimelineAddEntries" = false) :
    p.2 = none := by
  cases h1 : i.sub "type" with
  | error e => simp [stepSpec, h1, errBind] at hok
  | ok t =>
    have h2 := h t h1
    simp only [stepSpec, h1, okBind, h2, Bool.false_eq_true, if_false, pureBind] at hok
    cases hp : (t.eqStr "TimelinePinEntry" && pinned) with
    | false =>
      rw [hp] at hok
      simp only [Bool.false_eq_true, if_false, pureOk] at hok
      cases hok
      rfl
    | true =>
      rw [hp] at hok
      simp only [if_true] at hok
      cases h7 : i.sub "entry" with
      | error e => rw [h7, errBind] at hok; cases hok
      | ok item =>
        rw [h7, okBind] at hok
        cases h8 : parse_timeline_tweet_entry item TimelineEntryType.PINNED_TWEET with
        | error e => rw [h8, errBind] at hok; cases hok
        | ok parsed =>
          rw [h8, okBind, pureOk] at hok
          cases hok
          rfl

/-- `_parse_timeline_tweet_entry` tags the produced entry with exactly
the type it was given. -/
theorem parse_timeline_tweet_entry_type {x : Json} {ty : TimelineEntryType}
    {en : TimelineEntry}
    (h : parse_timeline_tweet_entry x ty = .ok en) : en.type = ty := by
  simp only [parse_timeline_tweet_entry] at h
  cases h1 : x.sub "content" with
  | error e => rw [h1, errBind] at h; cases h
  | ok c =>
    rw [h1, okBind] at h
    cases h2 : c.sub "itemContent" with
    | error e => rw [h2, errBind] at h; cases h
    | ok ic =>
      rw [h2, okBind] at h
      cases h3 : ic.sub "tweet_results" with
      | error e => rw [h3, errBind] at h; cases h
      | ok tr =>
        rw [h3, okBind] at h
        cases h4 : tr.sub "result" with
        | error e => rw [h4, errBind] at h; cases h
        | ok r =>
          rw [h4, okBind] at h
          cases h5 : parse_tweet r with
          | error e => rw [h5, errBind] at h; cases h
          | ok tw =>
            rw [h5, okBind, pureOk] at h
            cases h
            rfl

/-- Full characterization of `_parse_timeline` on a materialised
instruction list: run every instruction's contribution in order, then
read both cursors out of the last recorded slice (failing with the
`None`-subscript `TypeError` when no slice was recorded). -/
theorem parse_timeline_char (data : Json) (pinned : Bool) (insJson : Json)
    (l : List Json)
    (h1 : extract_instructions data = .ok insJson)
    (h2 : pyIter insJson = .ok l) :
    parse_timeline data pinned =
      (mapME (stepSpec pinned) l).bind (fun ps =>
        match lastSomeO none (ps.map Prod.snd) with
        | none => .error .typeError
        | some cs =>
          (pyIndex cs 0).bind (fun c0 => (parse_tweet_cursor c0).bind (fun top =>
            (pyIndex cs 1).bind (fun c1 => (parse_tweet_cursor c1).map (fun bottom =>
              ((ps.map Prod.fst).flatten, top, bottom)))))) := by
  simp only [parse_timeline, h1, okBind, h2, okBind, parse_instructions]
  rw [foldME_timelineStep]
  cases hm : mapME (stepSpec pinned) l with
  | error e => simp [mapErr, errBind, errBindE]
  | ok ps =>
    simp only [mapOk, okBind, okBindE]
    cases hc : lastSomeO none (ps.map Prod.snd) with
    | none => simp
    | some cs =>
      simp only []
      cases hi0 : pyIndex cs 0 with
      | error e => simp [hi0, errBind, errBindE]
      | ok c0 =>
        simp only [hi0, okBind, okBindE]
        cases ht : parse_tweet_cursor c0 with
        | error e => simp [ht, errBind, errBindE]
        | ok top =>
          simp only [ht, okBind, okBindE]
          cases hi1 : pyIndex cs 1 with
          | error e => simp [hi1, errBind, errBindE]
          | ok c1 =>
            simp only [hi1, okBind, okBindE]
            cases hb : parse_tweet_cursor c1 with
            | error e => simp [hb, errBind, errBindE, mapErr]
            | ok bottom => simp [hb, okBind, okBindE, mapOk, pureOk]

/-- Claim C3: when the instruction list contains no instruction of type
`TimelineAddEntries`, decoding the timeline fails (the `cursors`
variable is still `None` when subscripted, raising `TypeError` in
Python) and never returns a page. -/
theorem claim_c3_no_add_entries_fails (data insJson : Json) (l : List Json) (pinned : Bool)
    (h1 : extract_instructions data = .ok insJson)
    (h2 : pyIter insJson = .ok l)
    (h3 : ∀ i ∈ l, ∀ t, i.sub "type" = .ok t →
      t.eqStr "TimelineAddEntries" = false) :
    ∃ e, parse_timeline data pinned = .error e := by
  rw [parse_timeline_char data pinned insJson l h1 h2]
  cases hm : mapME (stepSpec pinned) l with
  | error e => exact ⟨e, by simp [errBindE]⟩
  | ok ps =>
    have hs : ∀ o ∈ ps.map Prod.snd, o = none := by
      intro o ho
      obtain ⟨p, hp, rfl⟩ := List.mem_map.mp ho
      obtain ⟨i, hi, hfi⟩ := mapME_ok_mem hm p hp
      exact stepSpec_ok_snd_none hfi (h3 i hi)
    exact ⟨.typeError, by simp [okBindE, lastSomeO_nones hs]⟩

/-- Claim C9: when the last `TimelineAddEntries` instruction has fewer
than two elements in its `entries` array, decoding fails (an
`IndexError` when reading the missing cursor positions, or an earlier
error) rather than returning a page with empty or partial cursors; hence
a successful decode read both cursors from two distinct trailing
entries. -/
theorem claim_c9_short_cursor_entries_fail (data insJson : Json) (pre post : List Json) (i : Json)
    (items : List Json) (pinned : Bool)
    (h1 : extract_instructions data = .ok insJson)
    (h2 : pyIter insJson = .ok (pre ++ i :: post))
    (hi1 : i.sub "type" = .ok (.str "TimelineAddEntries"))
    (hi2 : i.sub "entries" = .ok (.arr items))
    (hlen : items.length < 2)
    (hpost : ∀ j ∈ post, ∀ t, j.sub "type" = .ok t →
      t.eqStr "TimelineAddEntries" = false) :
    ∃ e, parse_timeline data pinned = .error e := by
  rw [parse_timeline_char data pinned insJson _ h1 h2]
  cases hm : mapME (stepSpec pinned) (pre ++ i :: post) with
  | error e => exact ⟨e, by simp [errBindE]⟩
  | ok ps =>
    rw [mapME_append] at hm
    cases hmp : mapME (stepSpec pinned) pre with
    | error e => rw [hmp, errBindE] at hm; cases hm
    | ok psPre =>
      rw [hmp, okBindE] at hm
      simp only [mapME] at hm
      cases hsi : stepSpec pinned i with
      | error e => rw [hsi, errBindE, mapErr] at hm; cases hm
      | ok pI =>
        rw [hsi, okBindE] at hm
        cases hmq : mapME (stepSpec pinned) post with
        | error e => rw [hmq, errBindE, mapErr] at hm; cases hm
        | ok psPost =>
          rw [hmq, okBindE, mapOk] at hm
          cases hm
          have hadd := @stepSpec_add pinned i items hi1 hi2
          rw [hsi] at hadd
          have hdrop0 : items.drop (items.length - 2) = items := by
            have hz : items.length - 2 = 0 := by omega
            rw [hz, List.drop_zero]
          rw [hdrop0] at hadd
          cases hmt : mapME
              (fun x => parse_timeline_tweet_entry x TimelineEntryType.STATUS_TWEET)
              (items.take (items.length - 2)) with
          | error e => rw [hmt, mapErr] at hadd; cases hadd
          | ok parsed =>
            rw [hmt, mapOk] at hadd
            have hpI : pI = (parsed, some (.arr items)) := by
              cases hadd; rfl
            subst hpI
            have hsPost : ∀ o ∈ psPost.map Prod.snd, o = none := by
              intro o ho
              obtain ⟨p, hp, rfl⟩ := List.mem_map.mp ho
              obtain ⟨j, hj, hfj⟩ := mapME_ok_mem hmq p hp
              exact stepSpec_ok_snd_none hfj (hpost j hj)
            have hcur : lastSomeO none
                ((psPre ++ (parsed, some (Json.arr items)) :: psPost).map Prod.snd) =
                some (.arr items) := by
              rw [List.map_append, lastSomeO_append, List.map_cons]
              simp only [lastSomeO, Option.isSome_some, if_true]
              exact lastSomeO_nones hsPost
            rcases items with _ | ⟨x, _ | ⟨y, rest⟩⟩
            · refine ⟨.indexError, ?_⟩
              simp only [okBindE, hcur]
              have hx0 : pyIndex (Json.arr []) 0 = .error .indexError := rfl
              simp [hx0, errBindE]
            · cases hpc : parse_tweet_cursor x with
              | error e =>
                refine ⟨e, ?_⟩
                simp only [okBindE, hcur]
                have hx0 : pyIndex (Json.arr [x]) 0 = .ok x := rfl
                simp [hx0, okBindE, hpc, errBindE]
              | ok top =>
                refine ⟨.indexError, ?_⟩
                simp only [okBindE, hcur]
                have hx0 : pyIndex (Json.arr [x]) 0 = .ok x := rfl
                have hx1 : pyIndex (Json.arr [x]) 1 = .error .indexError := rfl
                simp [hx0, okBindE, hpc, hx1, errBindE]
            · exact absurd hlen (by simp)

/-- Claim C1 (amended): for an instruction list whose only
`TimelineAddEntries` instruction carries N >= 2 entries and whose other
instructions are inert (not `TimelineAddEntries`, and not
`TimelinePinEntry` while `pinned` is set), decoding equals: parse the
first N-2 entries as `STATUS` tweets in source order, then read
`cursorTop` from the second-to-last element and `cursorBottom` from the
last (each as `entry.content.value`); the two trailing elements never
appear among the returned entries, and a successful decode returns
exactly N-2 entries, all tagged `STATUS`. -/
theorem claim_c1_add_entries_shape (data insJson : Json) (pre post : List Json) (i : Json)
    (items : List Json) (cTop cBottom : Json) (pinned : Bool)
    (h1 : extract_instructions data = .ok insJson)
    (h2 : pyIter insJson = .ok (pre ++ i :: post))
    (hinert : ∀ j ∈ pre ++ post, ∃ t, j.sub "type" = .ok t ∧
      t.eqStr "TimelineAddEntries" = false ∧
      (pinned = true → t.eqStr "TimelinePinEntry" = false))
    (hi1 : i.sub "type" = .ok (.str "TimelineAddEntries"))
    (hi2 : i.sub "entries" = .ok (.arr items))
    (hN : 2 ≤ items.length)
    (hdrop : items.drop (items.length - 2) = [cTop, cBottom]) :
    (parse_timeline data pinned =
      (mapME (fun x => parse_timeline_tweet_entry x TimelineEntryType.STATUS_TWEET)
          (items.take (items.length - 2))).bind (fun es =>
        (parse_tweet_cursor cTop).bind (fun top =>
          Except.map (fun bottom => (es, top, bottom)) (parse_tweet_cursor cBottom)))) ∧
    (∀ es top bottom, parse_timeline data pinned = .ok (es, top, bottom) →
      es.length = items.length - 2 ∧
      ∀ en ∈ es, en.type = TimelineEntryType.STATUS_TWEET) := by
  have hpreC : ∀ j ∈ pre, stepSpec pinned j = .ok ([], none) := by
    intro j hj
    obtain ⟨t, ht1, ht2, ht3⟩ := hinert j (List.mem_append_left _ hj)
    exact stepSpec_inert ht1 ht2 ht3
  have hpostC : ∀ j ∈ post, stepSpec pinned j = .ok ([], none) := by
    intro j hj
    obtain ⟨t, ht1, ht2, ht3⟩ := hinert j (List.mem_append_right _ hj)
    exact stepSpec_inert ht1 ht2 ht3
  have hmp : mapME (stepSpec pinned) pre =
      .ok (pre.map fun _ => (([] : List TimelineEntry), (none : Option Json))) :=
    mapME_const hpreC
  have hmq : mapME (stepSpec pinned) post =
      .ok (post.map fun _ => (([] : List TimelineEntry), (none : Option Json))) :=
    mapME_const hpostC
  have hadd := @stepSpec_add pinned i items hi1 hi2
  rw [hdrop] at hadd
  have hsndPost : ∀ o ∈ (post.map fun _ =>
      (([] : List TimelineEntry), (none : Option Json))).map Prod.snd, o = none := by
    intro o ho
    obtain ⟨p, hp, rfl⟩ := List.mem_map.mp ho
    obtain ⟨j, hj, rfl⟩ := List.mem_map.mp hp
    rfl
  have hfstPre : ∀ x ∈ (pre.map fun _ =>
      (([] : List TimelineEntry), (none : Option Json))).map Prod.fst, x = [] := by
    intro x hx
    obtain ⟨p, hp, rfl⟩ := List.mem_map.mp hx
    obtain ⟨j, hj, rfl⟩ := List.mem_map.mp hp
    rfl
  have hfstPost : ∀ x ∈ (post.map fun _ =>
      (([] : List TimelineEntry), (none : Option Json))).map Prod.fst, x = [] := by
    intro x hx
    obtain ⟨p, hp, rfl⟩ := List.mem_map.mp hx
    obtain ⟨j, hj, rfl⟩ := List.mem_map.mp hp
    rfl
  have heq : parse_timeline data pinned =
      (mapME (fun x => parse_timeline_tweet_entry x TimelineEntryType.STATUS_TWEET)
          (items.take (items.length - 2))).bind (fun es =>
        (parse_tweet_cursor cTop).bind (fun top =>
          Except.map (fun bottom => (es, top, bottom)) (parse_tweet_cursor cBottom))) := by
    rw [parse_timeline_char data pinned insJson _ h1 h2, mapME_append, hmp, okBindE]
    simp only [mapME]
    rw [hadd]
    cases hmt : mapME
        (fun x => parse_timeline_tweet_entry x TimelineEntryType.STATUS_TWEET)
        (items.take (items.length - 2)) with
    | error e => simp [mapErr, errBindE]
    | ok parsed =>
      simp only [mapOk, okBindE]
      rw [hmq, okBindE, mapOk, okBindE]
      have hcur : lastSomeO none
          (((pre.map fun _ => (([] : List TimelineEntry), (none : Option Json))) ++
            (parsed, some (Json.arr [cTop, cBottom])) ::
            (post.map fun _ => (([] : List TimelineEntry), (none : Option Json)))).map
              Prod.snd) = some (.arr [cTop, cBottom]) := by
        rw [List.map_append, lastSomeO_append, List.map_cons]
        simp only [lastSomeO, Option.isSome_some, if_true]
        exact lastSomeO_nones hsndPost
      have hflat : (((pre.map fun _ => (([] : List TimelineEntry), (none : Option Json))) ++
            (parsed, some (Json.arr [cTop, cBottom])) ::
            (post.map fun _ => (([] : List TimelineEntry), (none : Option Json)))).map
              Prod.fst).flatten = parsed := by
        rw [List.map_append, List.map_cons, List.flatten_append, List.flatten_cons,
          flatten_of_nils hfstPre, flatten_of_nils hfstPost, List.nil_append,
          List.append_nil]
      have hx0 : pyIndex (Json.arr [cTop, cBottom]) 0 = .ok cTop := rfl
      have hx1 : pyIndex (Json.arr [cTop, cBottom]) 1 = .ok cBottom := rfl
      simp only [hcur, hflat, hx0, hx1, okBindE]
  refine ⟨heq, ?_⟩
  intro es top bottom h
  rw [heq] at h
  cases hmt : mapME
      (fun x => parse_timeline_tweet_entry x TimelineEntryType.STATUS_TWEET)
      (items.take (items.length - 2)) with
  | error e => rw [hmt, errBindE] at h; cases h
  | ok parsed =>
    rw [hmt, okBindE] at h
    cases ht : parse_tweet_cursor cTop with
    | error e => rw [ht, errBindE] at h; cases h
    | ok topv =>
      rw [ht, okBindE] at h
      cases hb : parse_tweet_cursor cBottom with
      | error e => rw [hb, mapErr] at h; cases h
      | ok bottomv =>
        rw [hb, mapOk] at h
        have hes : parsed = es := by cases h; rfl
        subst hes
        constructor
        · have := mapME_ok_length hmt
          rw [this, List.length_take]
          omega
        · intro en hen
          obtain ⟨x, hx, hfx⟩ := mapME_ok_mem hmt en hen
          exact parse_timeline_tweet_entry_type hfx

/-- Claim C8: with several `TimelineAddEntries` instructions, the decoded
entries accumulate every instruction's contribution in instruction
order, while `cursorTop`/`cursorBottom` are read exclusively from the
last `TimelineAddEntries` instruction's two trailing elements — each
earlier instruction's recorded cursor slice is silently overwritten. -/
theorem claim_c8_last_add_entries_wins (data insJson : Json) (pre post : List Json) (i : Json)
    (items : List Json) (cA cB : Json) (pinned : Bool)
    (h1 : extract_instructions data = .ok insJson)
    (h2 : pyIter insJson = .ok (pre ++ i :: post))
    (_hmulti : ∃ j ∈ pre, j.sub "type" = .ok (.str "TimelineAddEntries"))
    (hi1 : i.sub "type" = .ok (.str "TimelineAddEntries"))
    (hi2 : i.sub "entries" = .ok (.arr items))
    (hdrop : items.drop (items.length - 2) = [cA, cB])
    (hpost : ∀ j ∈ post, ∀ t, j.sub "type" = .ok t →
      t.eqStr "TimelineAddEntries" = false) :
    parse_timeline data pinned =
      (mapME (stepSpec pinned) (pre ++ i :: post)).bind (fun ps =>
        (parse_tweet_cursor cA).bind (fun top =>
          Except.map (fun bottom => ((ps.map Prod.fst).flatten, top, bottom))
            (parse_tweet_cursor cB))) := by
  rw [parse_timeline_char data pinned insJson _ h1 h2]
  cases hm : mapME (stepSpec pinned) (pre ++ i :: post) with
  | error e => simp [errBindE]
  | ok ps =>
    rw [mapME_append] at hm
    cases hmp : mapME (stepSpec pinned) pre with
    | error e => rw [hmp, errBindE] at hm; cases hm
    | ok psPre =>
      rw [hmp, okBindE] at hm
      simp only [mapME] at hm
      cases hsi : stepSpec pinned i with
      | error e => rw [hsi, errBindE, mapErr] at hm; cases hm
      | ok pI =>
        rw [hsi, okBindE] at hm
        cases hmq : mapME (stepSpec pinned) post with
        | error e => rw [hmq, errBindE, mapErr] at hm; cases hm
        | ok psPost =>
          rw [hmq, okBindE, mapOk] at hm
          cases hm
          have hadd := @stepSpec_add pinned i items hi1 hi2
          rw [hsi, hdrop] at hadd
          cases hmt : mapME
              (fun x => parse_timeline_tweet_entry x TimelineEntryType.STATUS_TWEET)
              (items.take (items.length - 2)) with
          | error e => rw [hmt, mapErr] at hadd; cases hadd
          | ok parsed =>
            rw [hmt, mapOk] at hadd
            have hpI : pI = (parsed, some (.arr [cA, cB])) := by
              cases hadd; rfl
            subst hpI
            have hsPost : ∀ o ∈ psPost.map Prod.snd, o = none := by
              intro o ho
              obtain ⟨p, hp, rfl⟩ := List.mem_map.mp ho
              obtain ⟨j, hj, hfj⟩ := mapME_ok_mem hmq p hp
              exact stepSpec_ok_snd_none hfj (hpost j hj)
            have hcur : lastSomeO none
                ((psPre ++ (parsed, some (Json.arr [cA, cB])) :: psPost).map Prod.snd) =
                some (.arr [cA, cB]) := by
              rw [List.map_append, lastSomeO_append, List.map_cons]
              simp only [lastSomeO, Option.isSome_some, if_true]
              exact lastSomeO_nones hsPost
            have hx0 : pyIndex (Json.arr [cA, cB]) 0 = .ok cA := rfl
            have hx1 : pyIndex (Json.arr [cA, cB]) 1 = .ok cB := rfl
            simp only [okBindE, hcur, hx0, hx1]

/-- Counterexample to C1 as stated: an instruction list with EXACTLY ONE
`TimelineAddEntries` instruction (N = 2 entries, both cursors) plus a
`TimelinePinEntry`; decoding (with the default `pinned=True`) returns
one entry tagged `PINNED_TWEET`, not the claimed N-2 = 0 entries all
tagged `STATUS`. -/
theorem claim_c1_counterexample :
    parse_timeline (mkTimeline [addInstr [cursorEntry "T", cursorEntry "B"],
        pinInstr (tweetEntry tombNode)]) true =
      .ok ([⟨TimelineEntryType.PINNED_TWEET, Tweet.tombstone⟩],
        .str "T", .str "B") := rfl

/-- Witness for the amended C1 at a concrete single-instruction timeline
with one tweet entry and two cursor entries. -/
theorem claim_c1_witness :
    parse_timeline (mkTimeline [addInstr
        [tweetEntry tombNode, cursorEntry "T", cursorEntry "B"]]) true =
      .ok ([⟨TimelineEntryType.STATUS_TWEET, Tweet.tombstone⟩],
        .str "T", .str "B") :=
  Eq.trans
    (claim_c1_add_entries_shape
      (mkTimeline [addInstr [tweetEntry tombNode, cursorEntry "T", cursorEntry "B"]])
      (.arr [addInstr [tweetEntry tombNode, cursorEntry "T", cursorEntry "B"]])
      [] [] (addInstr [tweetEntry tombNode, cursorEntry "T", cursorEntry "B"])
      [tweetEntry tombNode, cursorEntry "T", cursorEntry "B"]
      (cursorEntry "T") (cursorEntry "B") true
      rfl rfl (by intro j hj; simp at hj) rfl rfl (by decide) rfl).1
    rfl

/-- Witness for C3 at a concrete timeline with an empty instruction
list. -/
theorem claim_c3_witness :
    ∃ e, parse_timeline (mkTimeline []) true = .error e :=
  claim_c3_no_add_entries_fails (mkTimeline []) (.arr []) [] true rfl rfl
    (by intro i hi; simp at hi)

/-- Witness for C8 at a concrete timeline with two `TimelineAddEntries`
instructions: entries come from both, cursors only from the second. -/
theorem claim_c8_witness :
    parse_timeline (mkTimeline
        [addInstr [tweetEntry tombNode, cursorEntry "X1", cursorEntry "X2"],
         addInstr [tweetEntry tombNode, cursorEntry "Y1", cursorEntry "Y2"]]) true =
      .ok ([⟨TimelineEntryType.STATUS_TWEET, Tweet.tombstone⟩,
            ⟨TimelineEntryType.STATUS_TWEET, Tweet.tombstone⟩],
        .str "Y1", .str "Y2") :=
  Eq.trans
    (claim_c8_last_add_entries_wins
      (mkTimeline
        [addInstr [tweetEntry tombNode, cursorEntry "X1", cursorEntry "X2"],
         addInstr [tweetEntry tombNode, cursorEntry "Y1", cursorEntry "Y2"]])
      (.arr [addInstr [tweetEntry tombNode, cursorEntry "X1", cursorEntry "X2"],
             addInstr [tweetEntry tombNode, cursorEntry "Y1", cursorEntry "Y2"]])
      [addInstr [tweetEntry tombNode, cursorEntry "X1", cursorEntry "X2"]] []
      (addInstr [tweetEntry tombNode, cursorEntry "Y1", cursorEntry "Y2"])
      [tweetEntry tombNode, cursorEntry "Y1", cursorEntry "Y2"]
      (cursorEntry "Y1") (cursorEntry "Y2") true
      rfl rfl
      ⟨addInstr [tweetEntry tombNode, cursorEntry "X1", cursorEntry "X2"],
        by simp, rfl⟩
      rfl rfl rfl (by intro j hj; simp at hj))
    rfl

/-- Witness for C9 at a concrete timeline whose only
`TimelineAddEntries` has a single entry. -/
theorem claim_c9_witness :
    ∃ e, parse_timeline (mkTimeline [addInstr [cursorEntry "X"]]) true =
      .error e :=
  claim_c9_short_cursor_entries_fail
    (mkTimeline [addInstr [cursorEntry "X"]])
    (.arr [addInstr [cursorEntry "X"]])
    [] [] (addInstr [cursorEntry "X"]) [cursorEntry "X"] true
    rfl rfl rfl rfl (by decide) (by intro j hj; simp at hj)

/-- A `<script>` element as `_parse_app_data` sees it: an optional `src`
attribute and the inline text. -/
structure Script where
  src : Option String
  text : String

/-- The lazy part of the guest-token pattern: after the literal prefix,
`.+?` consumes the fewest characters (at least one, never a newline)
before the closing quote-semicolon. -/
def lazyTail : List Char → Option (List Char)
  | [] => none
  | c :: rest =>
    if c = '\n' then none
    else if ['\"', ';'].isPrefixOf rest then some [c]
    else (lazyTail rest).map (fun cs => c :: cs)

/-- The literal part of `_TWITTER_GUEST_TOKEN_COOKIE_PATTERN` up to and
including the group's fixed `gt=` prefix. -/
def cookieLit : List Char := "document.cookie=\"gt=".toList

/-- `re.search` of the pattern `document.cookie="(gt=.+?)";`: leftmost
match position, lazily extended capture; returns group 1. -/
def cookieSearch : List Char → Option (List Char)
  | [] => none
  | c :: rest =>
    if cookieLit.isPrefixOf (c :: rest) then
      match lazyTail (List.drop cookieLit.length (c :: rest)) with
      | some body => some ("gt=".toList ++ body)
      | none => cookieSearch rest
    else cookieSearch rest

/-- `SimpleCookie` extraction of the `gt` morsel's value from the
captured cookie string, modelled for plain token values: the characters
between `gt=` and the first `;`. -/
def cookieGtValue (g : List Char) : String :=
  String.mk ((g.drop 3).takeWhile (fun c => c ≠ ';'))

/-- The guest token an inline script text yields, if its text matches
the document-cookie pattern. -/
def guest_token_of_text (text : String) : Option String :=
  (cookieSearch text.toList).map cookieGtValue

/-- The `if src and "main" in src` test of the scan loop: the script's
`src` when it is truthy and contains the substring `"main"`. -/
def scriptMainSrc (s : Script) : Option String :=
  match s.src with
  | some u => if strContainsStr "main" u then some u else none
  | none => none

/-- One iteration of the `_parse_app_data` scan loop: a main-`src`
script overwrites `url` (and, through the `elif`, never touches the
guest token); otherwise a cookie-matching text overwrites the guest
token. -/
def appStep (st : Option String × Option String) (s : Script) :
    Option String × Option String :=
  match scriptMainSrc s with
  | some u => (some u, st.2)
  | none =>
    match guest_token_of_text s.text with
    | some g => (st.1, some g)
    | none => st

/-- `_parse_app_data`: scan all script elements, then fail with
`ValueError` unless both a (non-empty) url and guest token were found. -/
def parse_app_data (scripts : List Script) : Except PyErr (String × String) :=
  match scripts.foldl appStep (none, none) with
  | (some u, some g) => if u = "" ∨ g = "" then .error .valueError else .ok (u, g)
  | _ => .error .valueError

/-- The contribution of the LAST script, in document order, on which the
selector fires. -/
def lastSome (f : Script → Option String) : List Script → Option String
  | [] => none
  | s :: rest =>
    match lastSome f rest with
    | some x => some x
    | none => f s

/-- The `src` of the last script, in document order, whose `src`
contains `"main"`. -/
def lastMainScriptSrc (scripts : List Script) : Option String :=
  lastSome scriptMainSrc scripts

/-- The guest token of the last cookie-matching script, in document
order, SKIPPING every script whose `src` contains `"main"` (such scripts
never contribute a token). -/
def lastNonMainGuestToken (scripts : List Script) : Option String :=
  lastSome (fun s =>
    match scriptMainSrc s with
    | some _ => none
    | none => guest_token_of_text s.text) scripts

/-- The url component of one scan step. -/
theorem appStep_fst (st : Option String × Option String) (s : Script) :
    (appStep st s).1 =
      match scriptMainSrc s with
      | some u => some u
      | none => st.1 := by
  simp only [appStep]
  cases scriptMainSrc s with
  | some u => rfl
  | none =>
    cases guest_token_of_text s.text with
    | some g => rfl
    | none => rfl

/-- The guest-token component of one scan step. -/
theorem appStep_snd (st : Option String × Option String) (s : Script) :
    (appStep st s).2 =
      match scriptMainSrc s with
      | some _ => st.2
      | none =>
        match guest_token_of_text s.text with
        | some g => some g
        | none => st.2 := by
  simp only [appStep]
  cases scriptMainSrc s with
  | some u => rfl
  | none =>
    cases guest_token_of_text s.text with
    | some g => rfl
    | none => rfl

/-- The scan's final url is the last main-script `src` (or the initial
value when there is none). -/
theorem foldl_appStep_fst :
    ∀ (scripts : List Script) (st : Option String × Option String),
      (scripts.foldl appStep st).1 =
        match lastSome scriptMainSrc scripts with
        | some x => some x
        | none => st.1 := by
  intro scripts
  induction scripts with
  | nil => intro st; rfl
  | cons s rest ih =>
    intro st
    simp only [List.foldl_cons, lastSome, ih]
    cases lastSome scriptMainSrc rest with
    | some x => rfl
    | none => rw [appStep_fst]

/-- The scan's final guest token is the last token contributed by a
non-main script (or the initial value when there is none). -/
theorem foldl_appStep_snd :
    ∀ (scripts : List Script) (st : Option String × Option String),
      (scripts.foldl appStep st).2 =
        match lastSome (fun s =>
          match scriptMainSrc s with
          | some _ => none
          | none => guest_token_of_text s.text) scripts with
        | some x => some x
        | none => st.2 := by
  intro scripts
  induction scripts with
  | nil => intro st; rfl
  | cons s rest ih =>
    intro st
    simp only [List.foldl_cons, lastSome, ih]
    cases lastSome (fun s =>
        match scriptMainSrc s with
        | some _ => none
        | none => guest_token_of_text s.text) rest with
    | some x => rfl
    | none =>
      rw [appStep_snd]
      cases scriptMainSrc s with
      | some u => rfl
      | none =>
        cases guest_token_of_text s.text with
        | some g => rfl
        | none => rfl

/-- Claim C10: when bootstrap scanning succeeds, the returned script URL
is the `src` of the LAST script element (in document order) whose `src`
contains `"main"`, and the returned guest token comes from the last
cookie-matching script that is NOT a main-`src` script — a main-`src`
script never contributes the guest token even if its inline text also
matches the document-cookie pattern (the `elif` skips it). -/
theorem claim_c10_last_main_wins (scripts : List Script) (u g : String)
    (h : parse_app_data scripts = .ok (u, g)) :
    lastMainScriptSrc scripts = some u ∧ lastNonMainGuestToken scripts = some g := by
  have hf := foldl_appStep_fst scripts (none, none)
  have hs := foldl_appStep_snd scripts (none, none)
  unfold parse_app_data at h
  split at h
  next u2 g2 heq =>
    rw [heq] at hf hs
    split at h
    · exact absurd h (by simp)
    · have hu : u2 = u := by cases h; rfl
      have hg : g2 = g := by cases h; rfl
      subst hu
      subst hg
      constructor
      · unfold lastMainScriptSrc
        cases hl : lastSome scriptMainSrc scripts with
        | none => rw [hl] at hf; cases hf
        | some x => rw [hl] at hf; simpa using hf.symm
      · unfold lastNonMainGuestToken
        cases hl : lastSome (fun s =>
            match scriptMainSrc s with
            | some _ => none
            | none => guest_token_of_text s.text) scripts with
        | none => rw [hl] at hs; cases hs
        | some x => rw [hl] at hs; simpa using hs.symm
  next heq => exact absurd h (by simp)

/-- Concrete scripts: two main scripts (the second also has matching
cookie text, which must be ignored) and a non-main cookie script. -/
def c10Scripts : List Script := [
  { src := some "https://abs.twimg.com/sw.js", text := "var x = 1;" },
  { src := some "main.abc.js", text := "document.cookie=\"gt=wrong\";" },
  { src := some "main.def.js", text := "boot();" },
  { src := none,
    text := "document.cookie=\"gt=123456; Max-Age=10800; Domain=.twitter.com\";" }]

/-- Witness for C10: on `c10Scripts` the scan returns the SECOND main
script's url and the token of the non-main script, not the token text
inside the main script. -/
theorem claim_c10_witness :
    lastMainScriptSrc c10Scripts = some "main.def.js" ∧
    lastNonMainGuestToken c10Scripts = some "123456" :=
  claim_c10_last_main_wins c10Scripts "main.def.js" "123456" rfl
